import Mathlib

/-!
Verification of the capability-negotiation and suspend/resume routing layer
of the supervisor-ag-ui example backend.

The definitions below are shallow embeddings of the Python sources:
  * `CLIENT_TOOL_REGISTRY`, `get_tools_by_names`   — backend/src/tool_registry.py
  * `DOMAIN_TOOL_MAPPING`, `DomainToolFilterMiddleware`,
    `filter_and_inject_tools`                      — backend/src/middleware.py
  * `get_filtered_tools`, `propagate_ui_messages`  — backend/src/utils/subagent_utils.py
  * `handle_video_request` UI propagation loop     — backend/src/video_agent.py
  * `restart_router`                               — backend/src/mcp_servers/wifi_server.py
  * `rent_movie`                                   — backend/src/mcp_servers/video_server.py
  * the human-in-the-loop suspend/resume controller is configured in
    wifi_agent.py / video_agent.py (`interrupt_on` tables) but implemented in
    an external library; it is modelled from the specification (§4.4/§4.6).
-/

/-- A client/MCP tool as far as negotiation is concerned: identity is the name;
`return_direct` mirrors the `@tool(return_direct=True)` flag on `play_video`. -/
structure Tool where
  name : String
  return_direct : Bool
deriving DecidableEq, Repr

/-- `confirmation_dialog` client tool (tool_registry.py). -/
def confirmation_dialog : Tool := ⟨"confirmation_dialog", false⟩

/-- `error_display` client tool (tool_registry.py). -/
def error_display : Tool := ⟨"error_display", false⟩

/-- `network_status_display` client tool (tool_registry.py). -/
def network_status_display : Tool := ⟨"network_status_display", false⟩

/-- `play_video` client tool (tool_registry.py), declared with `return_direct=True`. -/
def play_video : Tool := ⟨"play_video", true⟩

/-- The client tool registry dict of tool_registry.py, as an association list
(insertion order of the Python dict literal). -/
def CLIENT_TOOL_REGISTRY : List (String × Tool) :=
  [("confirmation_dialog", confirmation_dialog),
   ("error_display", error_display),
   ("network_status_display", network_status_display),
   ("play_video", play_video)]

/-- `get_tools_by_names` (tool_registry.py):
`[CLIENT_TOOL_REGISTRY[name] for name in tool_names if name in CLIENT_TOOL_REGISTRY]`. -/
def get_tools_by_names (tool_names : List String) : List Tool :=
  tool_names.filterMap (fun name => CLIENT_TOOL_REGISTRY.lookup name)

/-- The names present in the registry, in dict order (spec-side view). -/
def registryNames : List String :=
  ["confirmation_dialog", "error_display", "network_status_display", "play_video"]

/-- Spec-side total lookup: the registry entry for a known name
(the value on unknown names is irrelevant: it is only applied to known names). -/
def registryGet (n : String) : Tool :=
  if n = "confirmation_dialog" then confirmation_dialog
  else if n = "error_display" then error_display
  else if n = "network_status_display" then network_status_display
  else if n = "play_video" then play_video
  else ⟨"", false⟩

lemma registryNames_eq_map_fst : registryNames = CLIENT_TOOL_REGISTRY.map Prod.fst := rfl

lemma mem_registryNames_cases {n : String} (h : n ∈ registryNames) :
    n = "confirmation_dialog" ∨ n = "error_display" ∨
    n = "network_status_display" ∨ n = "play_video" := by
  simpa [registryNames] using h

lemma lookup_eq_registryGet {n : String} (h : n ∈ registryNames) :
    CLIENT_TOOL_REGISTRY.lookup n = some (registryGet n) := by
  rcases mem_registryNames_cases h with h | h | h | h <;> subst h <;> rfl

lemma lookup_eq_none_of_not_mem {n : String} (h : n ∉ registryNames) :
    CLIENT_TOOL_REGISTRY.lookup n = none := by
  simp only [registryNames, List.mem_cons, List.not_mem_nil, or_false, not_or] at h
  obtain ⟨h1, h2, h3, h4⟩ := h
  simp [CLIENT_TOOL_REGISTRY, List.lookup, beq_eq_false_iff_ne.mpr h1,
    beq_eq_false_iff_ne.mpr h2, beq_eq_false_iff_ne.mpr h3, beq_eq_false_iff_ne.mpr h4]

lemma registryGet_name {n : String} (h : n ∈ registryNames) :
    (registryGet n).name = n := by
  rcases mem_registryNames_cases h with h | h | h | h <;> subst h <;> rfl

lemma name_mem_of_lookup {n : String} {t : Tool}
    (h : CLIENT_TOOL_REGISTRY.lookup n = some t) : n ∈ registryNames := by
  by_contra hn
  rw [lookup_eq_none_of_not_mem hn] at h
  exact Option.noConfusion h

/-- Key decomposition: looking up a filtered name list in the registry equals
filtering further to registry members and mapping the total lookup. -/
lemma get_tools_by_names_eq (N : List String) :
    get_tools_by_names N
      = (N.filter (fun n => decide (n ∈ registryNames))).map registryGet := by
  induction N with
  | nil => rfl
  | cons n t ih =>
      by_cases h : n ∈ registryNames
      · simp [get_tools_by_names, List.filterMap_cons, lookup_eq_registryGet h, h,
          List.filter_cons, get_tools_by_names] at ih ⊢
        exact ih
      · simp [get_tools_by_names, List.filterMap_cons, lookup_eq_none_of_not_mem h, h,
          List.filter_cons, get_tools_by_names] at ih ⊢
        exact ih

lemma get_tools_by_names_append (N M : List String) :
    get_tools_by_names (N ++ M) = get_tools_by_names N ++ get_tools_by_names M := by
  simp [get_tools_by_names, List.filterMap_append]

/-- Claim C5: `get_tools_by_names` returns exactly the registry entries for the
names of `N` that are present in the registry, in the order they appear in `N`;
a name not present in the registry (e.g. `holo_display`) is dropped silently
(the function is total — it never raises). -/
theorem c5_lookup_drops_unknown (N : List String) :
    get_tools_by_names N
        = (N.filter (fun n => decide (n ∈ registryNames))).map registryGet
    ∧ (∀ t, t ∈ get_tools_by_names N ↔
        ∃ n, n ∈ N ∧ CLIENT_TOOL_REGISTRY.lookup n = some t)
    ∧ get_tools_by_names (N ++ ["holo_display"]) = get_tools_by_names N := by
  refine ⟨get_tools_by_names_eq N, ?_, ?_⟩
  · intro t
    simp [get_tools_by_names, List.mem_filterMap]
  · rw [get_tools_by_names_append]
    simp [get_tools_by_names, CLIENT_TOOL_REGISTRY, List.lookup]

/-!
## Domain tool filter middleware (backend/src/middleware.py)
-/

/-- `DOMAIN_TOOL_MAPPING` dict of middleware.py. -/
def DOMAIN_TOOL_MAPPING : List (String × List String) :=
  [("wifi", ["confirmation_dialog", "error_display", "network_status_display"]),
   ("video", ["confirmation_dialog", "error_display", "play_video"])]

/-- `DOMAIN_TOOL_MAPPING.get(domain, [])`. -/
def domainToolMappingGet (domain : String) : List String :=
  (DOMAIN_TOOL_MAPPING.lookup domain).getD []

/-- The middleware instance state set up by `DomainToolFilterMiddleware.__init__`. -/
structure DomainToolFilterMiddleware where
  domain : String
  allowed_tool_names : List String
  static_tools : List Tool
  logged : Bool
deriving DecidableEq, Repr

/-- `DomainToolFilterMiddleware.__init__(domain, static_tools)`. -/
def mkDomainToolFilterMiddleware (domain : String) (static_tools : List Tool) :
    DomainToolFilterMiddleware :=
  { domain := domain
    allowed_tool_names := domainToolMappingGet domain
    static_tools := static_tools
    logged := false }

/-- `_filter_and_inject_tools`: the request context is `some advertised` when
`request.runtime.context` is a dict (with `advertised_client_tools` defaulting
to `[]`), and `none` otherwise.  Returns the injected `request.tools` together
with the middleware state after the call (`_logged` becomes `True`). -/
def filter_and_inject_tools (mw : DomainToolFilterMiddleware)
    (context : Option (List String)) : List Tool × DomainToolFilterMiddleware :=
  let advertised_tool_names := context.getD []
  let relevant_tool_names :=
    if advertised_tool_names.isEmpty then []
    else advertised_tool_names.filter (fun name => mw.allowed_tool_names.contains name)
  let client_tools := get_tools_by_names relevant_tool_names
  let filtered_tools := mw.static_tools ++ client_tools
  (filtered_tools, { mw with logged := true })

/-- Spec-side negotiated dynamic part: the registry tools whose names occur both
in the advertisement and in the domain's permitted list, in advertisement order. -/
def specNegotiated (domain : String) (advertised : List String) : List Tool :=
  (advertised.filter
      (fun n => decide (n ∈ domainToolMappingGet domain) && decide (n ∈ registryNames))).map
    registryGet

lemma contains_eq_mem_decide (l : List String) (n : String) :
    l.contains n = decide (n ∈ l) := by
  induction l with
  | nil => simp
  | cons a t ih =>
      by_cases h : n = a
      · subst h; simp
      · simp [List.contains_cons, ih, h, beq_eq_false_iff_ne.mpr h]

lemma filter_and_inject_fst (mw : DomainToolFilterMiddleware)
    (context : Option (List String)) :
    (filter_and_inject_tools mw context).1
      = mw.static_tools
        ++ get_tools_by_names
            ((context.getD []).filter (fun n => mw.allowed_tool_names.contains n)) := by
  rcases context with _ | A
  · rfl
  · rcases A with _ | ⟨a, t⟩ <;> rfl

/-- Claim C1: the injected toolset equals the domain's static tools followed by
exactly those registry tools whose names occur both in the advertisement and in
`DOMAIN_TOOL_MAPPING[domain]`; every dynamically contributed tool's name is
advertised and permitted for the domain, so a name outside the domain mapping
never contributes a tool. -/
theorem c1_negotiated_toolset (domain : String) (static_tools : List Tool)
    (advertised : List String) :
    (filter_and_inject_tools (mkDomainToolFilterMiddleware domain static_tools)
        (some advertised)).1
      = static_tools ++ specNegotiated domain advertised
    ∧ ∀ t, t ∈ specNegotiated domain advertised →
        t.name ∈ advertised ∧ t.name ∈ domainToolMappingGet domain := by
  constructor
  · rw [filter_and_inject_fst]
    simp only [Option.getD_some, mkDomainToolFilterMiddleware]
    rw [get_tools_by_names_eq, List.filter_filter, specNegotiated]
    have hfe :
        List.filter
            (fun a => decide (a ∈ registryNames) && (domainToolMappingGet domain).contains a)
            advertised
          = List.filter
              (fun n => decide (n ∈ domainToolMappingGet domain) && decide (n ∈ registryNames))
              advertised := by
      apply List.filter_congr
      intro n _
      rw [contains_eq_mem_decide, Bool.and_comm]
    rw [hfe]
  · intro t ht
    simp only [specNegotiated, List.mem_map, List.mem_filter, Bool.and_eq_true,
      decide_eq_true_eq] at ht
    obtain ⟨n, ⟨hnA, hnD, hnR⟩, rfl⟩ := ht
    rw [registryGet_name hnR]
    exact ⟨hnA, hnD⟩

/-- Claim C1 witness: the spec's scenario — wifi domain, advertisement
`[confirmation_dialog, network_status_display]` restricted by the wifi mapping,
on top of a static diagnostic tool. -/
theorem c1_negotiated_toolset_witness :
    (filter_and_inject_tools
        (mkDomainToolFilterMiddleware "wifi" [⟨"wifi_diagnostic", false⟩])
        (some ["confirmation_dialog", "network_status_display"])).1
      = [⟨"wifi_diagnostic", false⟩]
          ++ specNegotiated "wifi" ["confirmation_dialog", "network_status_display"]
    ∧ (network_status_display.name ∈ ["confirmation_dialog", "network_status_display"]
        ∧ network_status_display.name ∈ domainToolMappingGet "wifi") := by
  refine ⟨(c1_negotiated_toolset "wifi" [⟨"wifi_diagnostic", false⟩]
    ["confirmation_dialog", "network_status_display"]).1, ?_⟩
  exact (c1_negotiated_toolset "wifi" [⟨"wifi_diagnostic", false⟩]
    ["confirmation_dialog", "network_status_display"]).2 network_status_display (by decide)

lemma find_append_of_any (p : Tool → Bool) (l1 l2 : List Tool) (h : l1.any p = true) :
    List.find? p (l1 ++ l2) = List.find? p l1 := by
  induction l1 with
  | nil => simp at h
  | cons a t ih =>
      by_cases ha : p a = true
      · simp [List.find?, ha]
      · simp only [List.any_cons, Bool.or_eq_true] at h
        rcases h with h | h
        · exact absurd h ha
        · have ha' : p a = false := by
            cases hpa : p a
            · rfl
            · exact absurd hpa ha
          simp [List.find?, ha', ih h]

/-- Claim C3: when a name resolved from the advertisement coincides with the
name of one of the domain's static tools, the fixed tool wins — the static
tools precede the client tools in the injected list, so name resolution over
the negotiated toolset returns the static occurrence, never a caller-advertised
shadow. -/
theorem c3_fixed_tools_win (domain : String) (static_tools : List Tool)
    (context : Option (List String)) (n : String)
    (h : static_tools.any (fun t => t.name == n) = true) :
    List.find? (fun t => t.name == n)
        (filter_and_inject_tools (mkDomainToolFilterMiddleware domain static_tools) context).1
      = List.find? (fun t => t.name == n) static_tools
    ∧ ∃ t, List.find? (fun t => t.name == n) static_tools = some t
        ∧ t ∈ static_tools ∧ t.name = n := by
  constructor
  · rw [filter_and_inject_fst]
    exact find_append_of_any _ _ _ h
  · have hsome : (List.find? (fun t => t.name == n) static_tools).isSome := by
      rw [List.find?_isSome]
      simpa using h
    obtain ⟨t, ht⟩ := Option.isSome_iff_exists.mp hsome
    refine ⟨t, ht, List.mem_of_find?_eq_some ht, ?_⟩
    have := List.find?_some ht
    simpa using this

/-- Claim C3 witness: a static diagnostic tool whose name is also advertised is
resolved to the static occurrence. -/
theorem c3_fixed_tools_win_witness :
    List.find? (fun t => t.name == "confirmation_dialog")
        (filter_and_inject_tools
          (mkDomainToolFilterMiddleware "wifi" [⟨"confirmation_dialog", true⟩])
          (some ["confirmation_dialog"])).1
      = List.find? (fun t => t.name == "confirmation_dialog") [⟨"confirmation_dialog", true⟩]
    ∧ ∃ t, List.find? (fun t => t.name == "confirmation_dialog")
          [(⟨"confirmation_dialog", true⟩ : Tool)] = some t
        ∧ t ∈ [(⟨"confirmation_dialog", true⟩ : Tool)] ∧ t.name = "confirmation_dialog" :=
  c3_fixed_tools_win "wifi" [⟨"confirmation_dialog", true⟩]
    (some ["confirmation_dialog"]) "confirmation_dialog" (by decide)

/-- Claim C4: negotiation is idempotent and free of hidden state — running
`_filter_and_inject_tools` a second time on the middleware state left by the
first call yields the same toolset, and the computed toolset does not depend on
the `_logged` flag. -/
theorem c4_negotiation_idempotent (mw : DomainToolFilterMiddleware)
    (context : Option (List String)) :
    (filter_and_inject_tools (filter_and_inject_tools mw context).2 context).1
      = (filter_and_inject_tools mw context).1
    ∧ ∀ b, (filter_and_inject_tools { mw with logged := b } context).1
        = (filter_and_inject_tools mw context).1 := by
  exact ⟨rfl, fun b => rfl⟩

/-- Claim C6: an unknown domain constructs fine, its permitted-name list is
empty, and every negotiation degrades to the static tools only. -/
theorem c6_unknown_domain_degrades (domain : String) (static_tools : List Tool)
    (h1 : domain ≠ "wifi") (h2 : domain ≠ "video") :
    (mkDomainToolFilterMiddleware domain static_tools).allowed_tool_names = []
    ∧ ∀ context, (filter_and_inject_tools
        (mkDomainToolFilterMiddleware domain static_tools) context).1 = static_tools := by
  have hmap : domainToolMappingGet domain = [] := by
    simp [domainToolMappingGet, DOMAIN_TOOL_MAPPING, List.lookup,
      beq_eq_false_iff_ne.mpr h1, beq_eq_false_iff_ne.mpr h2]
  refine ⟨hmap, ?_⟩
  intro context
  rw [filter_and_inject_fst]
  simp [mkDomainToolFilterMiddleware, hmap, get_tools_by_names]

/-- Claim C6 witness: domain `quantum` is unknown; with one static tool and a
nonempty advertisement the negotiated toolset is the static tool alone. -/
theorem c6_unknown_domain_degrades_witness :
    (mkDomainToolFilterMiddleware "quantum" [⟨"q_tool", false⟩]).allowed_tool_names = []
    ∧ (filter_and_inject_tools (mkDomainToolFilterMiddleware "quantum" [⟨"q_tool", false⟩])
        (some ["confirmation_dialog", "play_video"])).1 = [⟨"q_tool", false⟩] := by
  have h := c6_unknown_domain_degrades "quantum" [⟨"q_tool", false⟩]
    (by decide) (by decide)
  exact ⟨h.1, h.2 (some ["confirmation_dialog", "play_video"])⟩


/-!
## Schema-driven negotiation (backend/src/utils/subagent_utils.py,
backend/src/tool_converter.py, and the inlined copies in
wifi_agent.py / video_agent.py)
-/

/-- An AG UI tool schema sent by the frontend; `domains` is `none` when the
schema dict has no `"domains"` key. -/
structure AGUIToolSchema where
  name : String
  description : String
  domains : Option (List String)
deriving DecidableEq, Repr

/-- `_create_tool_from_schema` (tool_converter.py): builds a tool carrying the
schema's name (no `return_direct`). -/
def create_tool_from_schema (s : AGUIToolSchema) : Tool :=
  ⟨s.name, false⟩

/-- `convert_agui_schemas_to_tools` (tool_converter.py). -/
def convert_agui_schemas_to_tools (schemas : List AGUIToolSchema) : List Tool :=
  if schemas.isEmpty then [] else schemas.map create_tool_from_schema

/-- The schema-filtering loop of `get_filtered_tools` (and of the inlined copies
in `handle_wifi_request` / `handle_video_request`): skip a schema without a
`"domains"` key, keep one whose `domains` list contains the domain. -/
def filterSchemasByDomain (domain : String) : List AGUIToolSchema → List AGUIToolSchema
  | [] => []
  | s :: rest =>
    match s.domains with
    | none => filterSchemasByDomain domain rest
    | some ds =>
        if ds.contains domain then s :: filterSchemasByDomain domain rest
        else filterSchemasByDomain domain rest

/-- `get_filtered_tools` (subagent_utils.py): combined MCP tools plus the
domain-filtered, converted client tools (empty when no schemas were sent). -/
def get_filtered_tools (domain : String) (mcp_tools : List Tool)
    (tool_schemas : List AGUIToolSchema) : List Tool :=
  let client_tools :=
    if tool_schemas.isEmpty then []
    else convert_agui_schemas_to_tools (filterSchemasByDomain domain tool_schemas)
  mcp_tools ++ client_tools

/-- Spec-side selection predicate: the schema carries a `domains` list that
includes the domain. -/
def schemaMatchesDomain (domain : String) (s : AGUIToolSchema) : Bool :=
  match s.domains with
  | none => false
  | some ds => ds.contains domain

lemma filterSchemasByDomain_eq_filter (domain : String) (S : List AGUIToolSchema) :
    filterSchemasByDomain domain S = S.filter (schemaMatchesDomain domain) := by
  induction S with
  | nil => rfl
  | cons s rest ih =>
      cases hd : s.domains with
      | none =>
          simp [filterSchemasByDomain, hd, List.filter_cons, schemaMatchesDomain, ih]
      | some ds =>
          by_cases hc : ds.contains domain = true
          · simp [filterSchemasByDomain, hd, List.filter_cons, schemaMatchesDomain, hc, ih]
          · simp only [Bool.not_eq_true] at hc
            simp [filterSchemasByDomain, hd, List.filter_cons, schemaMatchesDomain, hc, ih]

/-- Claim C9: schema-driven negotiation converts exactly those schemas whose
`domains` list includes the domain; membership in the selected list is
equivalent to carrying a `domains` key whose list contains the domain; a schema
with no `domains` key is skipped without raising and never yields a tool for
any domain. -/
theorem c9_schema_domain_filter (domain : String) (mcp_tools : List Tool)
    (S : List AGUIToolSchema) :
    get_filtered_tools domain mcp_tools S
      = mcp_tools ++ (S.filter (schemaMatchesDomain domain)).map create_tool_from_schema
    ∧ (∀ s, s ∈ filterSchemasByDomain domain S ↔
        s ∈ S ∧ ∃ ds, s.domains = some ds ∧ domain ∈ ds)
    ∧ ∀ s, s.domains = none → ∀ d : String, s ∉ filterSchemasByDomain d S := by
  refine ⟨?_, ?_, ?_⟩
  · unfold get_filtered_tools
    by_cases hS : S.isEmpty
    · have : S = [] := List.isEmpty_iff.mp hS
      subst this
      rfl
    · simp only [hS, if_false]
      rw [filterSchemasByDomain_eq_filter, convert_agui_schemas_to_tools]
      by_cases hf : (S.filter (schemaMatchesDomain domain)).isEmpty
      · rw [List.isEmpty_iff] at hf
        simp [hf]
      · simp [hf]
  · intro s
    rw [filterSchemasByDomain_eq_filter, List.mem_filter]
    constructor
    · rintro ⟨hmem, hmatch⟩
      refine ⟨hmem, ?_⟩
      unfold schemaMatchesDomain at hmatch
      cases hd : s.domains with
      | none => rw [hd] at hmatch; exact Bool.noConfusion hmatch
      | some ds =>
          rw [hd] at hmatch
          have hmatch' : ds.contains domain = true := hmatch
          rw [contains_eq_mem_decide] at hmatch'
          exact ⟨ds, rfl, of_decide_eq_true hmatch'⟩
    · rintro ⟨hmem, ds, hd, hds⟩
      refine ⟨hmem, ?_⟩
      unfold schemaMatchesDomain
      rw [hd]
      show ds.contains domain = true
      rw [contains_eq_mem_decide]
      exact decide_eq_true hds
  · intro s hnone d hmem
    rw [filterSchemasByDomain_eq_filter, List.mem_filter] at hmem
    rw [schemaMatchesDomain, hnone] at hmem
    exact Bool.noConfusion hmem.2

/-- Claim C9 witness: of two schemas, only the one listing the `wifi` domain is
converted; the one with no `domains` key is skipped for every domain asked. -/
theorem c9_schema_domain_filter_witness :
    get_filtered_tools "wifi" [⟨"wifi_diagnostic", false⟩]
        [⟨"network_status_display", "net card", some ["wifi"]⟩,
         ⟨"mystery_tool", "no domains key", none⟩]
      = [⟨"wifi_diagnostic", false⟩]
          ++ ([(⟨"network_status_display", "net card", some ["wifi"]⟩ : AGUIToolSchema),
               ⟨"mystery_tool", "no domains key", none⟩].filter
              (schemaMatchesDomain "wifi")).map create_tool_from_schema
    ∧ ((⟨"network_status_display", "net card", some ["wifi"]⟩ : AGUIToolSchema)
        ∈ filterSchemasByDomain "wifi"
          [⟨"network_status_display", "net card", some ["wifi"]⟩,
           ⟨"mystery_tool", "no domains key", none⟩])
    ∧ (⟨"mystery_tool", "no domains key", none⟩ : AGUIToolSchema)
        ∉ filterSchemasByDomain "video"
          [⟨"network_status_display", "net card", some ["wifi"]⟩,
           ⟨"mystery_tool", "no domains key", none⟩] := by
  have h := c9_schema_domain_filter "wifi" [⟨"wifi_diagnostic", false⟩]
    [⟨"network_status_display", "net card", some ["wifi"]⟩,
     ⟨"mystery_tool", "no domains key", none⟩]
  refine ⟨h.1, ?_, ?_⟩
  · exact (h.2.1 ⟨"network_status_display", "net card", some ["wifi"]⟩).mpr
      ⟨by decide, ["wifi"], rfl, by decide⟩
  · exact h.2.2 ⟨"mystery_tool", "no domains key", none⟩ rfl "video"

/-!
## UI message propagation (backend/src/utils/subagent_utils.py and the inlined
loop at the end of `handle_video_request` in backend/src/video_agent.py)
-/

/-- A message in a subagent's `ui` state channel: a component name plus props
(props modelled as an association list). -/
structure UIMessage where
  name : String
  props : List (String × String)
deriving DecidableEq, Repr

/-- The propagation loop at the end of `handle_video_request` (video_agent.py):
`for ui_msg in result["ui"]: push_ui_message(ui_msg["name"], ui_msg["props"])`.
Returns the sequence of `push_ui_message` calls in order. -/
def handleVideoRequestPropagate : List UIMessage → List (String × List (String × String))
  | [] => []
  | m :: rest => (m.name, m.props) :: handleVideoRequestPropagate rest

/-- `propagate_ui_messages` (subagent_utils.py): `name = ui_msg.get("name")`,
then `if not name: continue` — a message whose name is falsy (empty) is skipped;
otherwise `push_ui_message(name, props)`.  Returns the pushes in order. -/
def propagate_ui_messages : List UIMessage → List (String × List (String × String))
  | [] => []
  | m :: rest =>
    if m.name = "" then propagate_ui_messages rest
    else (m.name, m.props) :: propagate_ui_messages rest

/-- Claim C7 counterexample: a subagent result whose `ui` channel holds exactly
one message with a falsy (empty) name is not re-pushed by
`propagate_ui_messages` — 0 pushes instead of the claimed 1, so propagation
does not re-push exactly the k messages of the channel. -/
theorem c7_counterexample :
    propagate_ui_messages [⟨"", [("x", "1")]⟩] = []
    ∧ ([(⟨"", [("x", "1")]⟩ : UIMessage)]).length = 1
    ∧ propagate_ui_messages [⟨"", [("x", "1")]⟩]
        ≠ handleVideoRequestPropagate [⟨"", [("x", "1")]⟩] := by
  refine ⟨rfl, rfl, ?_⟩
  decide

/-- Claim C7 (amended): the `handle_video_request` loop re-pushes all k
messages in order with name and props unchanged; `propagate_ui_messages`
re-pushes exactly those messages whose name is non-empty, in the same relative
order, with name and props unchanged. -/
theorem c7_ui_propagation_order (ui : List UIMessage) :
    handleVideoRequestPropagate ui = ui.map (fun m => (m.name, m.props))
    ∧ propagate_ui_messages ui
        = (ui.filter (fun m => !(m.name = ""))).map (fun m => (m.name, m.props)) := by
  constructor
  · induction ui with
    | nil => rfl
    | cons m rest ih => simp [handleVideoRequestPropagate, ih]
  · induction ui with
    | nil => rfl
    | cons m rest ih =>
        by_cases h : m.name = ""
        · simp [propagate_ui_messages, h, List.filter_cons, ih]
        · simp [propagate_ui_messages, h, List.filter_cons, ih]

/-!
## WiFi MCP server (backend/src/mcp_servers/wifi_server.py)
-/

/-- Python truthiness of an optional string: `None` and `""` are falsy. -/
def pyTruthy : Option String → Bool
  | none => false
  | some s => !(s = "")

/-- `restart_router` (wifi_server.py). -/
def restart_router (router_id : String) (selected_option : Option String) : String :=
  if pyTruthy selected_option then
    if selected_option = some "Yes, Restart Router" then
      "✅ Router restart initiated for " ++ router_id
        ++ ". Your router will be offline for about 2 minutes and then automatically come back online. Your devices should reconnect automatically."
    else "❌ Router restart cancelled by user"
  else "Awaiting confirmation to restart router " ++ router_id

/-- Claim C8: `restart_router` treats the supplied decision as its result —
`"Yes, Restart Router"` yields the restart-initiated message naming the router,
any other non-empty option yields the cancellation message, and an absent
option yields the awaiting-confirmation text. -/
theorem c8_restart_router_decision (router_id : String) :
    restart_router router_id (some "Yes, Restart Router")
      = "✅ Router restart initiated for " ++ router_id
          ++ ". Your router will be offline for about 2 minutes and then automatically come back online. Your devices should reconnect automatically."
    ∧ (∀ s, s ≠ "" → s ≠ "Yes, Restart Router" →
        restart_router router_id (some s) = "❌ Router restart cancelled by user")
    ∧ restart_router router_id none
        = "Awaiting confirmation to restart router " ++ router_id := by
  refine ⟨rfl, ?_, rfl⟩
  intro s hne hns
  simp [restart_router, pyTruthy, hne, hns]

/-- Claim C8 witness: the three decision cases for router `primary`. -/
theorem c8_restart_router_decision_witness :
    restart_router "primary" (some "Yes, Restart Router")
      = "✅ Router restart initiated for primary. Your router will be offline for about 2 minutes and then automatically come back online. Your devices should reconnect automatically."
    ∧ restart_router "primary" (some "No, Cancel") = "❌ Router restart cancelled by user"
    ∧ restart_router "primary" none = "Awaiting confirmation to restart router primary" := by
  have h := c8_restart_router_decision "primary"
  exact ⟨h.1, h.2.1 "No, Cancel" (by decide) (by decide), h.2.2⟩

/-!
## Video MCP server (backend/src/mcp_servers/video_server.py)
-/

/-- Python `str.lower()` (per-character lowercasing). -/
def pyLower (s : String) : String := String.mk (s.toList.map Char.toLower)

/-- Does `needle` occur at the head of `haystack`? -/
def charsHavePrefix : List Char → List Char → Bool
  | [], _ => true
  | _ :: _, [] => false
  | a :: as, b :: bs => a == b && charsHavePrefix as bs

/-- Does `needle` occur anywhere in `haystack`? (Python's `in` on strings.) -/
def charsHaveSub (needle : List Char) : List Char → Bool
  | [] => needle.isEmpty
  | c :: rest => charsHavePrefix needle (c :: rest) || charsHaveSub needle rest

/-- Python `needle in haystack` on strings. -/
def pyInStr (needle haystack : String) : Bool :=
  charsHaveSub needle.toList haystack.toList

/-- Python `f"{n:05d}"` for a non-negative value. -/
def pad05 (n : Nat) : String :=
  let s := toString n
  String.mk (List.replicate (5 - s.length) '0') ++ s

/-- The demo video URL returned for every rental (video_server.py). -/
def demo_video_url : String := "https://www.youtube.com/embed/vKQi3bBA1y8"

/-- `rent_movie` (video_server.py).  Python's builtin `hash` is an external,
seed-dependent function, so it is a parameter; `rental_price` is accepted and
unused, exactly as in the source.  `hash(title) % 100000` is floor modulus,
i.e. `Int.emod` with a positive divisor. -/
def rent_movie {α : Type} (pyHash : String → Int) (title : String)
    (rental_price : α) (selected_option : Option String) : String :=
  if pyTruthy selected_option && pyInStr "cancel" (pyLower (selected_option.getD "")) then
    "❌ Rental cancelled by user"
  else
    let rental_id := "R-" ++ pad05 ((pyHash title).emod 100000).toNat
    "✅ '" ++ title ++ "' rented successfully!\n\nRental ID: " ++ rental_id
      ++ "\nAccess: 48 hours\nVideo URL: " ++ demo_video_url

lemma success_ne_cancel (rest : String) :
    "✅ '" ++ rest ≠ "❌ Rental cancelled by user" := by
  intro h
  have hd := congrArg String.data h
  rw [String.data_append] at hd
  have hlit : ("✅ '" : String).data = ['✅', ' ', '\''] := rfl
  rw [hlit] at hd
  simp at hd

/-- Claim C10: `rent_movie` returns the cancellation message exactly when the
decision is a non-empty string containing `cancel` case-insensitively; in every
other case — an absent decision included — it returns the rental confirmation,
which names the title, a rental ID derived from `hash(title) % 100000`, and the
demo video URL. -/
theorem c10_rent_movie_cancel_iff {α : Type} (pyHash : String → Int)
    (title : String) (rental_price : α) (selected_option : Option String) :
    (rent_movie pyHash title rental_price selected_option = "❌ Rental cancelled by user"
      ↔ ∃ s, selected_option = some s ∧ s ≠ "" ∧ pyInStr "cancel" (pyLower s) = true)
    ∧ ((¬ ∃ s, selected_option = some s ∧ s ≠ "" ∧ pyInStr "cancel" (pyLower s) = true) →
        rent_movie pyHash title rental_price selected_option
          = "✅ '" ++ title ++ "' rented successfully!\n\nRental ID: "
              ++ ("R-" ++ pad05 ((pyHash title).emod 100000).toNat)
              ++ "\nAccess: 48 hours\nVideo URL: " ++ demo_video_url) := by
  have hcond : (pyTruthy selected_option
        && pyInStr "cancel" (pyLower (selected_option.getD ""))) = true
      ↔ ∃ s, selected_option = some s ∧ s ≠ "" ∧ pyInStr "cancel" (pyLower s) = true := by
    rcases selected_option with _ | s
    · simp [pyTruthy]
    · by_cases hs : s = ""
      · subst hs
        simp [pyTruthy]
      · simp [pyTruthy, hs]
  constructor
  · constructor
    · intro h
      rw [← hcond]
      by_contra hc
      have hc' : (pyTruthy selected_option
          && pyInStr "cancel" (pyLower (selected_option.getD ""))) = false := by
        cases hb : (pyTruthy selected_option
            && pyInStr "cancel" (pyLower (selected_option.getD "")))
        · rfl
        · exact absurd hb hc
      rw [rent_movie, hc'] at h
      simp only [Bool.false_eq_true, if_false] at h
      exact success_ne_cancel _ (by simpa [String.append_assoc] using h)
    · intro h
      rw [rent_movie, if_pos (hcond.mpr h)]
  · intro h
    have hc' : (pyTruthy selected_option
        && pyInStr "cancel" (pyLower (selected_option.getD ""))) = false := by
      cases hb : (pyTruthy selected_option
          && pyInStr "cancel" (pyLower (selected_option.getD "")))
      · rfl
      · exact absurd (hcond.mp hb) h
    rw [rent_movie, hc']
    simp [String.append_assoc]

/-- Claim C10 witness: a cancel decision cancels; an absent decision rents the
title with its rental ID and the demo URL (hash fixed to 0 for concreteness). -/
theorem c10_rent_movie_cancel_iff_witness :
    rent_movie (fun _ => (0 : Int)) "The Matrix" (399 : Nat) (some "Cancel")
      = "❌ Rental cancelled by user"
    ∧ rent_movie (fun _ => (0 : Int)) "The Matrix" (399 : Nat) none
      = "✅ '" ++ "The Matrix" ++ "' rented successfully!\n\nRental ID: "
          ++ ("R-" ++ pad05 (((0 : Int)).emod 100000).toNat)
          ++ "\nAccess: 48 hours\nVideo URL: " ++ demo_video_url := by
  constructor
  · exact (c10_rent_movie_cancel_iff (fun _ => (0 : Int)) "The Matrix" (399 : Nat)
      (some "Cancel")).1.mpr ⟨"Cancel", rfl, by decide, by decide⟩
  · exact (c10_rent_movie_cancel_iff (fun _ => (0 : Int)) "The Matrix" (399 : Nat)
      none).2 (by rintro ⟨s, hs, -, -⟩; exact Option.noConfusion hs)

/-!
## Suspend/resume (human-in-the-loop) controller

Modelled from the spec: the `HumanInTheLoopMiddleware` machinery that creates
checkpoints, blocks flagged tools, and resumes on a decision lives in the
external langchain/langgraph libraries, not in this repository; only its
configuration (`interrupt_on={"restart_router": True}` in wifi_agent.py and
`interrupt_on={"rent_movie": True}` in video_agent.py) is repository code.
The controller below follows spec §4.4/§4.6: a flagged capability invocation
creates a pending checkpoint instead of executing; a resume with a decision
consumes the checkpoint and executes the capability with the decision bound as
its result; resuming an unknown checkpoint fails with `UnknownCheckpoint`, an
already-consumed one with `AlreadyResolved`.
-/

/-- `interrupt_on` table of `create_wifi_agent` (wifi_agent.py). -/
def wifiInterruptOn : String → Bool := fun capability => capability == "restart_router"

/-- `interrupt_on` table of `create_video_agent` (video_agent.py). -/
def videoInterruptOn : String → Bool := fun capability => capability == "rent_movie"

/-- Resume error codes (spec §4.6). -/
inductive ResumeError where
  | UnknownCheckpoint
  | AlreadyResolved
deriving DecidableEq, Repr

/-- Controller state: pending checkpoints, consumed (resolved) checkpoints,
and the names of capabilities that have actually executed, in execution order. -/
structure HITLState where
  pending : List (Nat × String)
  resolved : List (Nat × String)
  executed : List String
  nextId : Nat
deriving DecidableEq, Repr

/-- The state before any capability invocation. -/
def initHITL : HITLState := ⟨[], [], [], 0⟩

/-- One observable action of a worker run: the reasoning engine selecting a
capability, or the external caller resuming a checkpoint with a decision. -/
inductive HITLEvent where
  | invoke (capability : String)
  | resume (checkpointId : Nat) (decision : String)
deriving DecidableEq, Repr

/-- Capability selection (spec §4.4): a capability flagged approval-required
creates a fresh pending checkpoint and is NOT executed; any other capability
executes immediately. -/
def invokeStep (flag : String → Bool) (st : HITLState) (capability : String) : HITLState :=
  if flag capability then
    { st with pending := st.pending ++ [(st.nextId, capability)], nextId := st.nextId + 1 }
  else
    { st with executed := st.executed ++ [capability] }

/-- Resume (spec §4.6): an already-consumed checkpoint fails with
`AlreadyResolved`; an unknown one with `UnknownCheckpoint`; otherwise the
checkpoint is consumed and its capability executes with the decision bound as
its result. -/
def resumeStep (st : HITLState) (checkpointId : Nat) (decision : String) :
    Except ResumeError HITLState :=
  if (st.resolved.lookup checkpointId).isSome then .error .AlreadyResolved
  else
    match st.pending.lookup checkpointId with
    | none => .error .UnknownCheckpoint
    | some capability =>
        .ok { st with
          pending := st.pending.filter (fun p => !(p.fst = checkpointId))
          resolved := st.resolved ++ [(checkpointId, capability)]
          executed := st.executed ++ [capability] }

/-- Run a sequence of events from a state; a resume error aborts the run. -/
def runHITL (flag : String → Bool) : HITLState → List HITLEvent → Except ResumeError HITLState
  | st, [] => .ok st
  | st, .invoke c :: rest => runHITL flag (invokeStep flag st c) rest
  | st, .resume cid d :: rest =>
      match resumeStep st cid d with
      | .error e => .error e
      | .ok st' => runHITL flag st' rest

/-- The gating invariant: every executed approval-required capability has a
consumed (decision-carrying) checkpoint. -/
def approvalInv (flag : String → Bool) (st : HITLState) : Prop :=
  ∀ capability, flag capability = true → capability ∈ st.executed →
    ∃ cid, (cid, capability) ∈ st.resolved

lemma lookup_append_single_self (l : List (Nat × String)) (k : Nat) (v : String) :
    ((l ++ [(k, v)]).lookup k).isSome := by
  induction l with
  | nil => simp [List.lookup]
  | cons p t ih =>
      by_cases h : k = p.1
      · simp [List.lookup, h]
      · simpa [List.lookup, beq_eq_false_iff_ne.mpr h] using ih

lemma approvalInv_invokeStep (flag : String → Bool) (st : HITLState) (c : String)
    (h : approvalInv flag st) : approvalInv flag (invokeStep flag st c) := by
  intro cap hflag hmem
  by_cases hc : flag c = true
  · simp only [invokeStep, hc, if_true] at hmem ⊢
    exact h cap hflag hmem
  · simp only [invokeStep, hc, if_false] at hmem ⊢
    have hmem' : cap ∈ st.executed ∨ cap ∈ [c] := by
      rw [← List.mem_append]
      exact hmem
    rcases hmem' with hmem' | hmem'
    · exact h cap hflag hmem'
    · rw [List.mem_singleton] at hmem'
      subst hmem'
      exact absurd hflag hc
  
lemma approvalInv_resumeStep (flag : String → Bool) (st st' : HITLState)
    (cid : Nat) (d : String) (h : approvalInv flag st)
    (hres : resumeStep st cid d = .ok st') : approvalInv flag st' := by
  unfold resumeStep at hres
  by_cases hr : (st.resolved.lookup cid).isSome
  · rw [if_pos hr] at hres
    exact Except.noConfusion hres
  · rw [if_neg hr] at hres
    cases hp : st.pending.lookup cid with
    | none => rw [hp] at hres; exact Except.noConfusion hres
    | some cap =>
        rw [hp] at hres
        injection hres with hst
        subst hst
        intro c hflag hmem
        simp only [List.mem_append, List.mem_singleton] at hmem
        rcases hmem with hmem | rfl
        · obtain ⟨cid', hcid'⟩ := h c hflag hmem
          exact ⟨cid', by simp [hcid']⟩
        · exact ⟨cid, by simp⟩

lemma approvalInv_runHITL (flag : String → Bool) (evs : List HITLEvent) :
    ∀ st st', approvalInv flag st → runHITL flag st evs = .ok st' →
      approvalInv flag st' := by
  induction evs with
  | nil =>
      intro st st' hinv hrun
      injection hrun with h
      subst h
      exact hinv
  | cons e rest ih =>
      intro st st' hinv hrun
      cases e with
      | invoke c =>
          exact ih _ _ (approvalInv_invokeStep flag st c hinv) hrun
      | resume cid d =>
          simp only [runHITL] at hrun
          cases hres : resumeStep st cid d with
          | error e' => rw [hres] at hrun; exact Except.noConfusion hrun
          | ok st1 =>
              rw [hres] at hrun
              exact ih _ _ (approvalInv_resumeStep flag st st1 cid d hinv hres) hrun

/-- Claim C2: in every run of the modelled controller, a capability flagged
approval-required (`restart_router` under the wifi table, `rent_movie` under
the video table) executes only after a decision consumed its checkpoint — every
flagged executed capability has a resolved checkpoint — and resuming the same
checkpoint a second time fails with `AlreadyResolved` instead of re-applying
the decision. -/
theorem c2_hitl_approval_gate (flag : String → Bool) :
    (∀ evs st, runHITL flag initHITL evs = .ok st →
      ∀ capability, flag capability = true → capability ∈ st.executed →
        ∃ cid, (cid, capability) ∈ st.resolved)
    ∧ (∀ st st' cid d d', resumeStep st cid d = .ok st' →
        resumeStep st' cid d' = .error .AlreadyResolved) := by
  constructor
  · intro evs st hrun
    exact approvalInv_runHITL flag evs initHITL st (by intro c _ hc; simp [initHITL] at hc) hrun
  · intro st st' cid d d' hres
    unfold resumeStep at hres
    by_cases hr : (st.resolved.lookup cid).isSome
    · rw [if_pos hr] at hres
      exact Except.noConfusion hres
    · rw [if_neg hr] at hres
      cases hp : st.pending.lookup cid with
      | none => rw [hp] at hres; exact Except.noConfusion hres
      | some cap =>
          rw [hp] at hres
          injection hres with hst
          subst hst
          unfold resumeStep
          rw [if_pos (by simpa using lookup_append_single_self st.resolved cid cap)]

/-- Claim C2 witness: under the wifi table, invoking `restart_router` suspends,
the first resume executes it with the decision bound, and a second resume of
checkpoint 0 fails with `AlreadyResolved`. -/
theorem c2_hitl_approval_gate_witness :
    runHITL wifiInterruptOn initHITL
        [.invoke "restart_router", .resume 0 "Yes, Restart Router"]
      = .ok ⟨[], [(0, "restart_router")], ["restart_router"], 1⟩
    ∧ (∃ cid, (cid, "restart_router")
        ∈ (⟨[], [(0, "restart_router")], ["restart_router"], 1⟩ : HITLState).resolved)
    ∧ resumeStep (⟨[], [(0, "restart_router")], ["restart_router"], 1⟩ : HITLState)
        0 "Yes, Restart Router" = .error .AlreadyResolved := by
  refine ⟨by rfl, ?_, by rfl⟩
  exact (c2_hitl_approval_gate wifiInterruptOn).1
    [.invoke "restart_router", .resume 0 "Yes, Restart Router"]
    ⟨[], [(0, "restart_router")], ["restart_router"], 1⟩
    (by rfl) "restart_router" (by decide) (by decide)
